import Mathlib

/-!
# Inventory HTTP servers: `shop/1`, `shop/2`, `shop/3`

A shallow embedding of the three `main.go` programs.  Each program holds an
`inventory` (a Go `map[string]int`) and answers HTTP requests from it.

* What a handler does is described by the `ResponseWriter` it leaves behind: the
  headers it has set, the status code (if one has been written) and the bytes of the
  body.  What the server adds on its own when it sends the response (a date, a content
  length, a sniffed content type) is not part of the model.
* A `range` loop over a map visits the entries in an order that the Go runtime picks
  anew for every loop.  The order is an explicit argument `ord` of the handlers that
  loop over the inventory.
* The handlers call into the standard library: `fmt` (`%s`, `%d`, `%q`), `url.Values.Get`,
  `http.Error`; the server dispatches requests to them, in variant 3 through the
  default request multiplexer.  These are modelled after the library's behaviour, each
  definition naming the function it stands for.  The responses the library writes when
  it refuses or redirects a request are not modelled.
* Go strings are modelled by Lean strings, that is by sequences of Unicode code points;
  byte strings that are not valid UTF-8 are not represented.  Go `int` prices are
  modelled by `Int`: the handlers perform no arithmetic on prices.
-/

namespace Shop

/-! ## The `fmt` verbs used by the handlers -/

/-- Decimal digits of a magnitude, most significant digit first.  This is the loop of
`fmt` for base 10, `for u >= 10 { buf[i] = '0' + u%10; u /= 10 }; buf[i] = '0' + u`,
run with a bound on the number of iterations. -/
def fmtUnsigned : Nat → Nat → List Char → List Char
  | 0, u, acc => Nat.digitChar u :: acc
  | fuel + 1, u, acc =>
    if 10 ≤ u then fmtUnsigned fuel (u / 10) (Nat.digitChar (u % 10) :: acc)
    else Nat.digitChar u :: acc

/-- The verb `%d` applied to an `int`: a minus sign for a negative value, then the
decimal digits of the magnitude. -/
def fmtD (v : Int) : String :=
  if v < 0 then String.mk ('-' :: fmtUnsigned v.natAbs v.natAbs [])
  else String.mk (fmtUnsigned v.natAbs v.natAbs [])

/-- One step of reading a decimal numeral from the left (Horner's rule): the value
read so far is multiplied by ten and the digit added; a character that is not a digit
makes the reading fail. -/
def digitStep (acc : Option Nat) (c : Char) : Option Nat :=
  match acc with
  | none => none
  | some n => if '0' ≤ c ∧ c ≤ '9' then some (10 * n + (c.toNat - 48)) else none

/-- The number a sequence of decimal digits denotes; `none` if the sequence is empty or
holds a character that is not a digit. -/
def decimalValue (cs : List Char) : Option Nat :=
  if cs = [] then none else cs.foldl digitStep (some 0)

/-- The integer an optionally signed decimal numeral denotes. -/
def decimalInt (s : String) : Option Int :=
  if s.data.head? = some '-' then (decimalValue s.data.tail).map (fun n => - (n : Int))
  else (decimalValue s.data).map (fun n => (n : Int))

/-! ## The verb `%q` (`strconv.Quote`) -/

/-- The double quote character. -/
def dquote : Char := Char.ofNat 34

/-- The backslash character. -/
def backslash : Char := Char.ofNat 92

/-- Function `strconv.IsPrint`.  Runes up to U+00FF are classified by the code itself;
above that the code consults the Unicode tables `isPrint16` and `isPrint32`, which are
data of the standard library and are passed in as `tbl`. -/
def IsPrint (tbl : Char → Bool) (r : Char) : Bool :=
  if r.toNat ≤ 0xFF then
    if 0x20 ≤ r.toNat ∧ r.toNat ≤ 0x7E then true
    else if 0xA1 ≤ r.toNat ∧ r.toNat ≤ 0xFF then decide (r.toNat ≠ 0xAD)
    else false
  else tbl r

/-- The `k` low hexadecimal digits of `r`, most significant first, in lower case
(`lowerhex[r>>s&0xF]` for `s` going down to 0 in steps of 4). -/
def lowerhex (r : Nat) : Nat → List Char
  | 0 => []
  | k + 1 => Nat.digitChar (r / 16 ^ k % 16) :: lowerhex r k

/-- The `switch` at the end of `strconv.appendEscapedRune`, reached by a rune that is
not printable: the named escapes, then `\x` with two hexadecimal digits for the other
control characters, `\u` with four digits below U+10000 and `\U` with eight above. -/
def escapeSequence (r : Char) : List Char :=
  if r.toNat = 7 then [backslash, 'a']
  else if r.toNat = 8 then [backslash, 'b']
  else if r.toNat = 12 then [backslash, 'f']
  else if r.toNat = 10 then [backslash, 'n']
  else if r.toNat = 13 then [backslash, 'r']
  else if r.toNat = 9 then [backslash, 't']
  else if r.toNat = 11 then [backslash, 'v']
  else if r.toNat < 0x20 ∨ r.toNat = 0x7F then backslash :: 'x' :: lowerhex r.toNat 2
  else if r.toNat < 0x10000 then backslash :: 'u' :: lowerhex r.toNat 4
  else backslash :: 'U' :: lowerhex r.toNat 8

/-- Function `strconv.appendEscapedRune` for the double quote as quote character: the
quote and the backslash are always backslashed, a printable rune stands for itself,
and every other rune is written as an escape sequence. -/
def escapedRune (tbl : Char → Bool) (r : Char) : List Char :=
  if r = dquote ∨ r = backslash then [backslash, r]
  else if IsPrint tbl r then [r]
  else escapeSequence r

/-- Function `strconv.Quote`, which is what `%q` prints for a string: a double quote,
every rune of `s` escaped by `escapedRune`, and a closing double quote. -/
def Quote (tbl : Char → Bool) (s : String) : String :=
  String.mk (dquote :: (s.data.flatMap (escapedRune tbl) ++ [dquote]))

/-! ## The parts of `net/http` and `net/url` used by the handlers -/

/-- Type `url.Values`: the parsed query string, each key with its values in order. -/
structure Values where
  m : List (String × List String)

/-- Method `url.Values.Get`: the first value of `key`, or the empty string if the key
has no value. -/
def Values.Get (v : Values) (key : String) : String :=
  match v.m.lookup key with
  | some (x :: _) => x
  | _ => ""

/-- The parts of `*http.Request` that the programs, the server and the multiplexer
read: `Method`, `RequestURI`, `URL.Path`, `URL.EscapedPath()` (the path as it is
written in the request, of which `URL.Path` is the unescaped form) and `URL.Query()`. -/
structure Request where
  Method : String
  RequestURI : String
  Path : String
  EscapedPath : String
  Query : Values

/-- What has been done to an `http.ResponseWriter`: the headers set through
`w.Header()`, the status code if the header has been written, and the body bytes
written so far. -/
structure ResponseWriter where
  header : List (String × String)
  status : Option Nat
  body : String
deriving DecidableEq

namespace ResponseWriter

/-- The writer a handler is given: empty header map, no status, no body. -/
def fresh : ResponseWriter := ⟨[], none, ""⟩

/-- Call `w.Header().Set(k, v)`. -/
def SetHeader (w : ResponseWriter) (k v : String) : ResponseWriter :=
  { w with header := (k, v) :: w.header.filter (fun e => e.1 ≠ k) }

/-- Call `w.WriteHeader(code)`: only the first call takes effect. -/
def WriteHeader (w : ResponseWriter) (code : Nat) : ResponseWriter :=
  match w.status with
  | some _ => w
  | none => { w with status := some code }

/-- Call `w.Write(p)`: if no header was written yet, status 200 is written first; then
the bytes are appended to the body. -/
def Write (w : ResponseWriter) (p : String) : ResponseWriter :=
  { w.WriteHeader 200 with body := (w.WriteHeader 200).body ++ p }

/-- The status code of the response: the one written, or 200 if the handler returned
without writing any. -/
def Code (w : ResponseWriter) : Nat := w.status.getD 200

end ResponseWriter

/-- Constant `http.StatusNotFound`. -/
def StatusNotFound : Nat := 404

/-- Function `http.Error`: sets the two headers, writes the status code, and prints the
message with `fmt.Fprintln`, that is followed by a newline. -/
def Error (w : ResponseWriter) (error : String) (code : Nat) : ResponseWriter :=
  (((w.SetHeader "Content-Type" "text/plain; charset=utf-8").SetHeader
    "X-Content-Type-Options" "nosniff").WriteHeader code).Write (error ++ "\n")

/-! ## The inventory -/

/-- Type `inventory` (`map[string]int`): finitely many entries with distinct keys. -/
structure inventory where
  entries : List (String × Int)
  nodup : (entries.map Prod.fst).Nodup

/-- Map index expression `price, ok := inv[item]`. -/
def inventory.get? (inv : inventory) (item : String) : Option Int :=
  inv.entries.lookup item

/-- Builtin `len(inv)`. -/
def inventory.len (inv : inventory) : Nat := inv.entries.length

/-- An order in which one execution of `for item, price := range inv` may visit the
map: every entry exactly once, in an order the runtime chooses anew for each loop. -/
def inventory.Order (inv : inventory) : Type :=
  { es : List (String × Int) // es.Perm inv.entries }

/-- The line `fmt.Fprintf(w, "%s: %d\n", item, price)` writes. -/
def listLine (item : String) (price : Int) : String :=
  item ++ ": " ++ fmtD price ++ "\n"

/-! ## Variant 1: `shop/1/main.go` -/

namespace Shop1

/-- The literal `inventory{"shoes": 10, "socks": 5}` of `main`. -/
def inv : inventory := ⟨[("shoes", 10), ("socks", 5)], by decide⟩

/-- Method `inventory.ServeHTTP` of variant 1: the `range` loop over the map, run in the
order `ord`, printing one line per entry.  The request is not read. -/
def ServeHTTP (inv : inventory) (ord : inv.Order) (w : ResponseWriter) (_r : Request) :
    ResponseWriter :=
  ord.val.foldl (fun w e => w.Write (listLine e.1 e.2)) w

end Shop1

/-! ## Variant 2: `shop/2/main.go` -/

namespace Shop2

/-- The literal `inventory{"shoes": 10, "socks": 5}` of `main`. -/
def inv : inventory := ⟨[("shoes", 10), ("socks", 5)], by decide⟩

/-- Method `inventory.ServeHTTP` of variant 2: the `switch` on `r.URL.Path`, which has
the two cases `"/list"` and `"/price"` and no default case. -/
def ServeHTTP (tbl : Char → Bool) (inv : inventory) (ord : inv.Order) (w : ResponseWriter)
    (r : Request) : ResponseWriter :=
  if r.Path = "/list" then
    ord.val.foldl (fun w e => w.Write (listLine e.1 e.2)) w
  else if r.Path = "/price" then
    match inv.get? (r.Query.Get "item") with
    | none => Error w ("no such item: " ++ Quote tbl (r.Query.Get "item")) StatusNotFound
    | some price => w.Write (fmtD price ++ "\n")
  else w

end Shop2

/-! ## The default request multiplexer -/

/-- The elements of a path: the pieces between its slashes. -/
def splitSlash : List Char → List (List Char)
  | [] => [[]]
  | c :: cs =>
    if c = '/' then [] :: splitSlash cs
    else
      match splitSlash cs with
      | [] => [[c]]
      | e :: es => (c :: e) :: es

/-- The elements that `path.Clean` keeps, `stack` holding those kept so far (last one
first): empty and `.` elements are dropped, and a `..` element removes the element
before it, or is dropped at the root. -/
def cleanElems (stack : List (List Char)) : List (List Char) → List (List Char)
  | [] => stack.reverse
  | e :: es =>
    if e = [] ∨ e = ['.'] then cleanElems stack es
    else if e = ['.', '.'] then cleanElems stack.tail es
    else cleanElems (e :: stack) es

/-- Function `path.Clean` on a rooted path (one that starts with a slash), the only
kind `cleanPath` passes to it. -/
def Clean (p : List Char) : List Char :=
  match cleanElems [] (splitSlash p) with
  | [] => ['/']
  | es => es.flatMap (fun e => '/' :: e)

/-- Function `cleanPath` of `net/http`: the canonical form of a request path.  The
empty path becomes `/`, a leading slash is added if missing, the path is cleaned, and a
trailing slash that cleaning removed is put back. -/
def cleanPath (p : String) : String :=
  if p = "" then "/"
  else
    let p1 := if p.data.head? = some '/' then p.data else '/' :: p.data
    let np := Clean p1
    if p1.getLast? = some '/' ∧ np ≠ ['/'] then String.mk (np ++ ['/']) else String.mk np

/-- Type `http.HandlerFunc`. -/
abbrev HandlerFunc : Type := ResponseWriter → Request → ResponseWriter

/-- Type `http.ServeMux`, for patterns of the kind `main` registers: a rooted path
without host, method, wildcard or trailing slash, which matches a request by equality
with its unescaped path.  `H` is the type of the registered handlers. -/
structure ServeMux (H : Type) where
  m : List (String × H)

/-- Variable `http.DefaultServeMux` before any registration. -/
def DefaultServeMux {H : Type} : ServeMux H := ⟨[]⟩

/-- Function `http.HandleFunc`: registers `handler` for `pattern`. -/
def ServeMux.HandleFunc {H : Type} (mux : ServeMux H) (pattern : String) (handler : H) :
    ServeMux H :=
  ⟨mux.m ++ [(pattern, handler)]⟩

/-- What the multiplexer decides for a request: to refuse it, to redirect it to the
path `path`, to hand it to the handler `h` registered under `pattern`, or, no pattern
matching, to hand it to `http.NotFound`. -/
inductive Route (H : Type) where
  | badRequest : Route H
  | redirect (path : String) : Route H
  | handler (pattern : String) (h : H) : Route H
  | notFound : Route H

/-- The decision of `ServeMux.ServeHTTP`.  A request whose `RequestURI` is `*` is
refused; a request other than `CONNECT` whose escaped path is not in canonical form is
redirected to the canonical form; every other request goes to the handler registered
for its path, or to `http.NotFound` if there is none. -/
def ServeMux.route {H : Type} (mux : ServeMux H) (r : Request) : Route H :=
  if r.RequestURI = "*" then .badRequest
  else if r.Method ≠ "CONNECT" ∧ cleanPath r.EscapedPath ≠ r.EscapedPath then
    .redirect (cleanPath r.EscapedPath)
  else
    match mux.m.lookup r.Path with
    | some h => .handler r.Path h
    | none => .notFound

/-- Function `http.NotFound`, the handler the multiplexer uses when no pattern matches:
it replies `http.Error(w, "404 page not found", http.StatusNotFound)`. -/
def NotFound (w : ResponseWriter) (_r : Request) : ResponseWriter :=
  Error w "404 page not found" StatusNotFound

/-- What the multiplexer does with a request: it refuses it, it redirects it to the
path `path`, or a handler serves it: the one registered under `pattern`, or
`http.NotFound` with the empty pattern.  The responses of a refusal and of a redirect
are written by the library and are not modelled. -/
inductive MuxResult where
  | badRequest : MuxResult
  | redirect (path : String) : MuxResult
  | served (pattern : String) (w : ResponseWriter) : MuxResult
deriving DecidableEq

/-- Method `ServeMux.ServeHTTP`: the handler that `route` selects is run on the
writer. -/
def ServeMux.ServeHTTP (mux : ServeMux HandlerFunc) (w : ResponseWriter) (r : Request) :
    MuxResult :=
  match mux.route r with
  | .badRequest => .badRequest
  | .redirect path => .redirect path
  | .handler pattern h => .served pattern (h w r)
  | .notFound => .served "" (NotFound w r)

/-! ## The server -/

/-- What the server does with a request: it answers it with its own handler for
`OPTIONS *`, or passes it to the handler it was started with. -/
inductive ServerResult (β : Type) where
  | generalOptions (w : ResponseWriter) : ServerResult β
  | handled (b : β) : ServerResult β
deriving DecidableEq

/-- The server's own handler for `OPTIONS *`: it sets a content length of zero and
writes nothing, so the response has status 200 and an empty body. -/
def globalOptionsHandler (w : ResponseWriter) (_r : Request) : ResponseWriter :=
  w.SetHeader "Content-Length" "0"

/-- The dispatch of `net/http`'s server, as started by `http.ListenAndServe`: the
request `OPTIONS *` goes to `globalOptionsHandler`, every other request to `handler`,
each with a fresh writer. -/
def serverHandler {β : Type} (handler : ResponseWriter → Request → β) (r : Request) :
    ServerResult β :=
  if r.RequestURI = "*" ∧ r.Method = "OPTIONS" then
    .generalOptions (globalOptionsHandler ResponseWriter.fresh r)
  else .handled (handler ResponseWriter.fresh r)

/-! ## Variant 3: `shop/3/main.go` -/

namespace Shop3

/-- The literal `inventory{"shoes": 50, "socks": 5}` of `main`. -/
def inv : inventory := ⟨[("shoes", 50), ("socks", 5)], by decide⟩

/-- Method `inventory.list`: the `range` loop over the map, run in the order `ord`,
printing one line per entry. -/
def list (inv : inventory) (ord : inv.Order) (w : ResponseWriter) (_r : Request) :
    ResponseWriter :=
  ord.val.foldl (fun w e => w.Write (listLine e.1 e.2)) w

/-- Method `inventory.price`: looks up the `item` query value; replies 404 with a
message if it is not in the map, and prints the price otherwise. -/
def price (tbl : Char → Bool) (inv : inventory) (w : ResponseWriter) (r : Request) :
    ResponseWriter :=
  match inv.get? (r.Query.Get "item") with
  | none => Error w ("no such item: " ++ Quote tbl (r.Query.Get "item")) StatusNotFound
  | some price => w.Write (fmtD price ++ "\n")

/-- The multiplexer after the two `http.HandleFunc` calls of `main`. -/
def mux (tbl : Char → Bool) (inv : inventory) (ord : inv.Order) : ServeMux HandlerFunc :=
  (DefaultServeMux.HandleFunc "/list" (list inv ord)).HandleFunc "/price" (price tbl inv)

/-- The server of variant 3 answering one request: `http.ListenAndServe` with a nil
handler serves with the default multiplexer. -/
def serve (tbl : Char → Bool) (inv : inventory) (ord : inv.Order) (r : Request) :
    ServerResult MuxResult :=
  serverHandler (mux tbl inv ord).ServeHTTP r

end Shop3

/-! ## The programs as state transformers

The map a handler's receiver refers to is shared, mutable state.  Here the handlers
are written once more as functions on a store that holds the map next to the writer,
statement by statement, so that what a handler does to the map can be read off. -/

/-- The state a handler runs in: the map its receiver `inv` refers to, and the writer
it is given. -/
structure Store where
  inv : inventory
  w : ResponseWriter

/-- Statement `fmt.Fprintf(w, ...)` printing the text `p`: a write to `w`. -/
def Store.Fprintf (s : Store) (p : String) : Store := { s with w := s.w.Write p }

/-- Statement `http.Error(w, error, code)`. -/
def Store.Error (s : Store) (error : String) (code : Nat) : Store :=
  { s with w := Shop.Error s.w error code }

/-- Method `inventory.ServeHTTP` of variant 1 on a store.  The `range` loop enumerates
the map as it is when the loop starts, in the order `choose` gives for it. -/
def Shop1.ServeHTTP.run (choose : (m : inventory) → m.Order) (s : Store) (_r : Request) :
    Store :=
  (choose s.inv).val.foldl (fun s e => s.Fprintf (listLine e.1 e.2)) s

/-- Method `inventory.ServeHTTP` of variant 2 on a store. -/
def Shop2.ServeHTTP.run (tbl : Char → Bool) (choose : (m : inventory) → m.Order) (s : Store)
    (r : Request) : Store :=
  if r.Path = "/list" then
    (choose s.inv).val.foldl (fun s e => s.Fprintf (listLine e.1 e.2)) s
  else if r.Path = "/price" then
    match s.inv.get? (r.Query.Get "item") with
    | none => s.Error ("no such item: " ++ Quote tbl (r.Query.Get "item")) StatusNotFound
    | some price => s.Fprintf (fmtD price ++ "\n")
  else s

/-- Method `inventory.list` of variant 3 on a store. -/
def Shop3.list.run (choose : (m : inventory) → m.Order) (s : Store) (_r : Request) : Store :=
  (choose s.inv).val.foldl (fun s e => s.Fprintf (listLine e.1 e.2)) s

/-- Method `inventory.price` of variant 3 on a store. -/
def Shop3.price.run (tbl : Char → Bool) (s : Store) (r : Request) : Store :=
  match s.inv.get? (r.Query.Get "item") with
  | none => s.Error ("no such item: " ++ Quote tbl (r.Query.Get "item")) StatusNotFound
  | some price => s.Fprintf (fmtD price ++ "\n")

/-- The multiplexer of variant 3 after the two `http.HandleFunc` calls of `main`, with
the handlers as functions on a store. -/
def Shop3.mux.run (tbl : Char → Bool) (choose : (m : inventory) → m.Order) :
    ServeMux (Store → Request → Store) :=
  (DefaultServeMux.HandleFunc "/list" (Shop3.list.run choose)).HandleFunc "/price"
    (Shop3.price.run tbl)

/-- The three programs. -/
inductive Variant where
  | one : Variant
  | two : Variant
  | three : Variant
deriving DecidableEq

/-- The inventory `main` builds before it starts serving. -/
def initial : Variant → inventory
  | .one => Shop1.inv
  | .two => Shop2.inv
  | .three => Shop3.inv

/-- The inventory after the server has handled one request in the state `s`.  The
request `OPTIONS *` is answered by the server and runs no code of the program.  In
variants 1 and 2 every other request runs `ServeHTTP`; in variant 3 it runs the handler
the multiplexer selects, and no code of the program if the multiplexer refuses or
redirects the request or finds no handler.  Where code of the program runs, the
inventory afterwards is the one in the store that code leaves behind. -/
def handle (tbl : Char → Bool) (choose : (m : inventory) → m.Order) (v : Variant)
    (s : inventory) (r : Request) : inventory :=
  if r.RequestURI = "*" ∧ r.Method = "OPTIONS" then s
  else
    match v with
    | .one => (Shop1.ServeHTTP.run choose ⟨s, ResponseWriter.fresh⟩ r).inv
    | .two => (Shop2.ServeHTTP.run tbl choose ⟨s, ResponseWriter.fresh⟩ r).inv
    | .three =>
      match (Shop3.mux.run tbl choose).route r with
      | .handler _ h => (h ⟨s, ResponseWriter.fresh⟩ r).inv
      | _ => s

/-- The inventories a server can hold: the initial one, and any that the handling of a
request leaves behind, whatever the request and the order in which loops enumerate the
map. -/
inductive Reachable (v : Variant) : inventory → Prop where
  | init : Reachable v (initial v)
  | step (tbl : Char → Bool) (choose : (m : inventory) → m.Order) (s : inventory)
      (r : Request) : Reachable v s → Reachable v (handle tbl choose v s r)

/-! ## Lines of a body -/

/-- The newline-terminated lines of a text, together with what follows the last
newline (empty when the text consists of terminated lines only); `cur` holds the
characters of the line being read, last one first. -/
def splitLines (cur : List Char) : List Char → List String × String
  | [] => ([], String.mk cur.reverse)
  | c :: cs =>
    if c = '\n' then
      ((String.mk cur.reverse) :: (splitLines [] cs).1, (splitLines [] cs).2)
    else splitLines (c :: cur) cs

/-- The newline-terminated lines of a body and the unterminated rest. -/
def bodyLines (body : String) : List String × String := splitLines [] body.data

/-- The text of the line for one entry, without the newline: the item, a colon and a
blank, and the price in decimal. -/
def entryText (e : String × Int) : String := e.1 ++ ": " ++ fmtD e.2

/-! ## Concrete inputs -/

/-- A table of printable runes above U+00FF that holds every rune to be printable; the
examples below contain no such rune. -/
def allPrintable : Char → Bool := fun _ => true

/-- Request `GET /price?item=shoes`. -/
def getPriceShoes : Request :=
  ⟨"GET", "/price?item=shoes", "/price", "/price", ⟨[("item", ["shoes"])]⟩⟩

/-- Request `GET /price?item=boots`. -/
def getPriceBoots : Request :=
  ⟨"GET", "/price?item=boots", "/price", "/price", ⟨[("item", ["boots"])]⟩⟩

/-- Request `GET /price`, without an `item` parameter. -/
def getPriceNoItem : Request := ⟨"GET", "/price", "/price", "/price", ⟨[]⟩⟩

/-- Request `GET /price?item=a%22b`, whose `item` value is `a`, a double quote, `b`. -/
def getPriceQuoted : Request :=
  ⟨"GET", "/price?item=a%22b", "/price", "/price",
    ⟨[("item", [String.mk ['a', dquote, 'b']])]⟩⟩

/-- Request `POST /price?x=1&item=shoes`. -/
def postPriceShoes : Request :=
  ⟨"POST", "/price?x=1&item=shoes", "/price", "/price",
    ⟨[("x", ["1"]), ("item", ["shoes"])]⟩⟩

/-- Request `GET /list`. -/
def getList : Request := ⟨"GET", "/list", "/list", "/list", ⟨[]⟩⟩

/-- Request `GET /`. -/
def getRoot : Request := ⟨"GET", "/", "/", "/", ⟨[]⟩⟩

/-- Request `POST /anything?x=1`. -/
def postAnything : Request :=
  ⟨"POST", "/anything?x=1", "/anything", "/anything", ⟨[("x", ["1"])]⟩⟩

/-- Request `OPTIONS *`. -/
def optionsStar : Request := ⟨"OPTIONS", "*", "*", "*", ⟨[]⟩⟩

/-- The header map `http.Error` leaves when it starts from an empty one. -/
def errorHeader : List (String × String) :=
  [("X-Content-Type-Options", "nosniff"), ("Content-Type", "text/plain; charset=utf-8")]

/-- An inventory with an item that costs nothing. -/
def freebies : inventory := ⟨[("flyer", 0), ("socks", 5)], by decide⟩

/-- Request `GET /price?item=flyer`. -/
def getPriceFlyer : Request :=
  ⟨"GET", "/price?item=flyer", "/price", "/price", ⟨[("item", ["flyer"])]⟩⟩

/-- The entries of variant 3's inventory enumerated as written: shoes, then socks. -/
def shoesFirst : Shop3.inv.Order := ⟨[("shoes", 50), ("socks", 5)], List.Perm.refl _⟩

/-- The entries of variant 3's inventory enumerated the other way: socks, then shoes. -/
def socksFirst : Shop3.inv.Order := ⟨[("socks", 5), ("shoes", 50)], List.Perm.swap _ _ _⟩

/-- The entries of variant 1's inventory enumerated as written: shoes, then socks. -/
def shoesFirst1 : Shop1.inv.Order := ⟨[("shoes", 10), ("socks", 5)], List.Perm.refl _⟩

/-- The entries of variant 1's inventory enumerated the other way: socks, then shoes. -/
def socksFirst1 : Shop1.inv.Order := ⟨[("socks", 5), ("shoes", 10)], List.Perm.swap _ _ _⟩

/-- A runtime that enumerates every map in the order in which its entries are listed. -/
def asListed : (m : inventory) → m.Order := fun m => ⟨m.entries, List.Perm.refl _⟩

/-- A runtime that enumerates every map in the reverse of that order. -/
def reversed : (m : inventory) → m.Order := fun m => ⟨m.entries.reverse, List.reverse_perm _⟩

/-! ## Properties of the formatting functions -/

theorem digitChar_value (k : Nat) (hk : k < 10) :
    '0' ≤ Nat.digitChar k ∧ Nat.digitChar k ≤ '9' ∧ (Nat.digitChar k).toNat - 48 = k := by
  interval_cases k <;> decide

theorem digitChar_ne_newline (k : Nat) : Nat.digitChar k ≠ '\n' := by
  by_cases hk : k < 16
  · interval_cases k <;> decide
  · have hstar : Nat.digitChar k = '*' := by
      unfold Nat.digitChar
      repeat rw [if_neg (by omega)]
    rw [hstar]
    decide

theorem fmtUnsigned_append (fuel : Nat) :
    ∀ (u : Nat) (acc : List Char), fmtUnsigned fuel u acc = fmtUnsigned fuel u [] ++ acc := by
  induction fuel with
  | zero => intro u acc; simp [fmtUnsigned]
  | succ n ih =>
    intro u acc
    unfold fmtUnsigned
    split_ifs
    · rw [ih (u / 10) (Nat.digitChar (u % 10) :: acc), ih (u / 10) [Nat.digitChar (u % 10)]]
      simp
    · simp

theorem digitStep_digit (n k : Nat) (hk : k < 10) :
    digitStep (some n) (Nat.digitChar k) = some (10 * n + k) := by
  obtain ⟨h0, h9, hv⟩ := digitChar_value k hk
  simp [digitStep, h0, h9, hv]

theorem foldl_digitStep_none (cs : List Char) : cs.foldl digitStep none = none := by
  induction cs with
  | nil => rfl
  | cons c cs ih => simpa [digitStep] using ih

theorem fmtUnsigned_ne_nil (fuel u : Nat) (acc : List Char) : fmtUnsigned fuel u acc ≠ [] := by
  rw [fmtUnsigned_append]
  cases fuel with
  | zero => simp [fmtUnsigned]
  | succ n =>
    unfold fmtUnsigned
    split_ifs
    · rw [fmtUnsigned_append]; simp
    · simp

/-- With the magnitude itself as bound on the iterations, the digit loop runs to its
end: the digits it produces denote the magnitude. -/
theorem fmtUnsigned_value (fuel : Nat) :
    ∀ u : Nat, u ≤ fuel → (fmtUnsigned fuel u []).foldl digitStep (some 0) = some u := by
  induction fuel with
  | zero =>
    intro u hu
    have : u = 0 := by omega
    subst this
    decide
  | succ n ih =>
    intro u hu
    unfold fmtUnsigned
    split_ifs with h10
    · rw [fmtUnsigned_append, List.foldl_append, ih (u / 10) (by omega)]
      simp only [List.foldl_cons, List.foldl_nil]
      rw [digitStep_digit _ _ (Nat.mod_lt _ (by decide))]
      congr 1
      omega
    · simp only [List.foldl_cons, List.foldl_nil]
      rw [digitStep_digit _ _ (by omega)]
      congr 1
      omega

theorem decimalValue_fmtUnsigned (u : Nat) : decimalValue (fmtUnsigned u u []) = some u := by
  unfold decimalValue
  rw [if_neg (fmtUnsigned_ne_nil u u []), fmtUnsigned_value u u (le_refl u)]

theorem fmtD_neg (v : Int) (hv : v < 0) :
    fmtD v = String.mk ('-' :: fmtUnsigned v.natAbs v.natAbs []) := by
  unfold fmtD
  rw [if_pos hv]

theorem fmtD_nonneg (v : Int) (hv : ¬ v < 0) :
    fmtD v = String.mk (fmtUnsigned v.natAbs v.natAbs []) := by
  unfold fmtD
  rw [if_neg hv]

/-- The text `%d` prints for an integer is a decimal numeral of that integer. -/
theorem decimalInt_fmtD (v : Int) : decimalInt (fmtD v) = some v := by
  by_cases hv : v < 0
  · rw [fmtD_neg v hv]
    unfold decimalInt
    rw [if_pos (by simp)]
    simp only [List.tail_cons]
    rw [decimalValue_fmtUnsigned]
    show some _ = some v
    congr 1
    show _ = v
    simp only []
    omega
  · rw [fmtD_nonneg v hv]
    unfold decimalInt
    have hval := fmtUnsigned_value v.natAbs v.natAbs (le_refl _)
    have hne := fmtUnsigned_ne_nil v.natAbs v.natAbs []
    have hhead : ¬ ((fmtUnsigned v.natAbs v.natAbs []).head? = some '-') := by
      cases hds : fmtUnsigned v.natAbs v.natAbs [] with
      | nil => exact absurd hds hne
      | cons c cs =>
        rw [hds] at hval
        intro hc
        simp only [List.head?_cons, Option.some.injEq] at hc
        subst hc
        simp only [List.foldl_cons] at hval
        have hminus : digitStep (some 0) '-' = none := by decide
        rw [hminus, foldl_digitStep_none] at hval
        exact Option.noConfusion hval
    rw [if_neg hhead, decimalValue_fmtUnsigned]
    show some _ = some v
    congr 1
    show _ = v
    simp only []
    omega

theorem mem_fmtUnsigned (fuel : Nat) :
    ∀ (u : Nat) (acc : List Char) (c : Char), c ∈ fmtUnsigned fuel u acc →
      c ∈ acc ∨ ∃ k, c = Nat.digitChar k := by
  induction fuel with
  | zero =>
    intro u acc c hc
    simp only [fmtUnsigned, List.mem_cons] at hc
    rcases hc with hc | hc
    · exact Or.inr ⟨u, hc⟩
    · exact Or.inl hc
  | succ n ih =>
    intro u acc c hc
    unfold fmtUnsigned at hc
    split_ifs at hc
    · rcases ih _ _ _ hc with h | h
      · simp only [List.mem_cons] at h
        rcases h with h | h
        · exact Or.inr ⟨_, h⟩
        · exact Or.inl h
      · exact Or.inr h
    · simp only [List.mem_cons] at hc
      rcases hc with hc | hc
      · exact Or.inr ⟨u, hc⟩
      · exact Or.inl hc

theorem newline_not_mem_fmtD (v : Int) : '\n' ∉ (fmtD v).data := by
  intro hmem
  unfold fmtD at hmem
  split_ifs at hmem
  · simp only [List.mem_cons] at hmem
    rcases hmem with h | h
    · exact absurd h (by decide)
    · rcases mem_fmtUnsigned _ _ _ _ h with h | ⟨k, hk⟩
      · simp at h
      · exact digitChar_ne_newline k hk.symm
  · rcases mem_fmtUnsigned _ _ _ _ hmem with h | ⟨k, hk⟩
    · simp at h
    · exact digitChar_ne_newline k hk.symm

/-! ## Properties of the writer and of quoting -/

theorem String_empty_append (p : String) : "" ++ p = p := by
  apply String.ext
  simp

theorem Write_fresh (p : String) :
    ResponseWriter.fresh.Write p = ⟨[], some 200, p⟩ := by
  simp [ResponseWriter.Write, ResponseWriter.WriteHeader, ResponseWriter.fresh,
    String_empty_append]

theorem Error_fresh (msg : String) (code : Nat) :
    Error ResponseWriter.fresh msg code =
      ⟨[("X-Content-Type-Options", "nosniff"), ("Content-Type", "text/plain; charset=utf-8")],
        some code, msg ++ "\n"⟩ := by
  simp [Error, ResponseWriter.Write, ResponseWriter.WriteHeader, ResponseWriter.SetHeader,
    ResponseWriter.fresh, String_empty_append]

theorem price_of_key (tbl : Char → Bool) (inv : inventory) (w : ResponseWriter) (r : Request)
    (p : Int) (h : inv.get? (r.Query.Get "item") = some p) :
    Shop3.price tbl inv w r = w.Write (fmtD p ++ "\n") := by
  simp [Shop3.price, h]

theorem price_of_absent (tbl : Char → Bool) (inv : inventory) (w : ResponseWriter) (r : Request)
    (h : inv.get? (r.Query.Get "item") = none) :
    Shop3.price tbl inv w r =
      Error w ("no such item: " ++ Quote tbl (r.Query.Get "item")) StatusNotFound := by
  simp [Shop3.price, h]

theorem ServeHTTP_price (tbl : Char → Bool) (inv : inventory) (ord : inv.Order)
    (w : ResponseWriter) (r : Request) (h : r.Path = "/price") :
    Shop2.ServeHTTP tbl inv ord w r = Shop3.price tbl inv w r := by
  have hl : ¬ (r.Path = "/list") := by rw [h]; decide
  simp [Shop2.ServeHTTP, Shop3.price, h, hl]

theorem ServeHTTP_list (tbl : Char → Bool) (inv : inventory) (ord : inv.Order)
    (w : ResponseWriter) (r : Request) (h : r.Path = "/list") :
    Shop2.ServeHTTP tbl inv ord w r = Shop3.list inv ord w r := by
  simp [Shop2.ServeHTTP, Shop3.list, h]

theorem escapedRune_plain (tbl : Char → Bool) (c : Char) (hp : IsPrint tbl c = true)
    (hq : c ≠ dquote) (hb : c ≠ backslash) : escapedRune tbl c = [c] := by
  simp [escapedRune, hp, hq, hb]

theorem flatMap_escapedRune_plain (tbl : Char → Bool) (l : List Char)
    (h : ∀ c ∈ l, IsPrint tbl c = true ∧ c ≠ dquote ∧ c ≠ backslash) :
    l.flatMap (escapedRune tbl) = l := by
  induction l with
  | nil => rfl
  | cons c cs ih =>
    have hc := h c (List.mem_cons_self _ _)
    rw [List.flatMap_cons, escapedRune_plain tbl c hc.1 hc.2.1 hc.2.2,
      ih (fun x hx => h x (List.mem_cons_of_mem _ hx))]
    rfl

theorem escapeSequence_length (c : Char) : 2 ≤ (escapeSequence c).length := by
  unfold escapeSequence
  split_ifs <;> simp only [List.length_cons, List.length_nil] <;> omega

theorem escapedRune_length_pos (tbl : Char → Bool) (c : Char) :
    1 ≤ (escapedRune tbl c).length := by
  have hseq := escapeSequence_length c
  unfold escapedRune
  split_ifs
  · simp
  · simp
  · omega

theorem escapedRune_length_escaped (tbl : Char → Bool) (c : Char)
    (h : ¬ (IsPrint tbl c = true ∧ c ≠ dquote ∧ c ≠ backslash)) :
    2 ≤ (escapedRune tbl c).length := by
  have hseq := escapeSequence_length c
  unfold escapedRune
  split_ifs with h1 h2
  · simp
  · exact absurd ⟨h2, fun hq => h1 (Or.inl hq), fun hb => h1 (Or.inr hb)⟩ h
  · omega

theorem length_le_flatMap_escapedRune (tbl : Char → Bool) (l : List Char) :
    l.length ≤ (l.flatMap (escapedRune tbl)).length := by
  induction l with
  | nil => simp
  | cons c cs ih =>
    have hc := escapedRune_length_pos tbl c
    simp only [List.flatMap_cons, List.length_append, List.length_cons]
    omega

theorem plain_of_flatMap_escapedRune (tbl : Char → Bool) (l : List Char)
    (h : l.flatMap (escapedRune tbl) = l) :
    ∀ c ∈ l, IsPrint tbl c = true ∧ c ≠ dquote ∧ c ≠ backslash := by
  induction l with
  | nil => intro c hc; cases hc
  | cons c cs ih =>
    have hlen := congrArg List.length h
    simp only [List.flatMap_cons, List.length_append, List.length_cons] at hlen
    have hcs := length_le_flatMap_escapedRune tbl cs
    have hplain : IsPrint tbl c = true ∧ c ≠ dquote ∧ c ≠ backslash := by
      by_contra hnot
      have := escapedRune_length_escaped tbl c hnot
      omega
    have hc : escapedRune tbl c = [c] := escapedRune_plain tbl c hplain.1 hplain.2.1 hplain.2.2
    rw [List.flatMap_cons, hc] at h
    have htail : cs.flatMap (escapedRune tbl) = cs := by
      simpa using h
    intro x hx
    rcases List.mem_cons.mp hx with hx | hx
    · rw [hx]; exact hplain
    · exact ih htail x hx

theorem Quote_eq_plain_iff (tbl : Char → Bool) (S : String) :
    Quote tbl S = "\"" ++ S ++ "\""
      ↔ ∀ c ∈ S.data, IsPrint tbl c = true ∧ c ≠ dquote ∧ c ≠ backslash := by
  have hdata : ("\"" ++ S ++ "\"").data = dquote :: (S.data ++ [dquote]) := by
    simp only [String.data_append]
    rfl
  constructor
  · intro h
    have hd := congrArg String.data h
    rw [hdata] at hd
    simp only [Quote, List.cons.injEq, true_and, List.append_cancel_right_eq] at hd
    exact plain_of_flatMap_escapedRune tbl S.data hd
  · intro hplain
    apply String.ext
    rw [hdata]
    simp only [Quote]
    rw [flatMap_escapedRune_plain tbl S.data hplain]

/-! ## The price lookup -/

/-- C1: for every inventory and every item `I` that is a key of it with price `p`, the
price lookup on a request whose `item` query value is `I` answers with status 200 and a
body that is the decimal rendering of `p` followed by one newline, in variant 3's
`inventory.price` and in variant 2's `ServeHTTP` on the path `/price`; the rendering is
a decimal numeral that denotes `p`. -/
theorem C1_price_of_present_item (tbl : Char → Bool) (inv : inventory) (I : String) (p : Int)
    (r : Request) (hkey : inv.get? I = some p) (hitem : r.Query.Get "item" = I) :
    (Shop3.price tbl inv ResponseWriter.fresh r).Code = 200
    ∧ (Shop3.price tbl inv ResponseWriter.fresh r).body = fmtD p ++ "\n"
    ∧ (r.Path = "/price" → ∀ ord : inv.Order,
        (Shop2.ServeHTTP tbl inv ord ResponseWriter.fresh r).Code = 200
        ∧ (Shop2.ServeHTTP tbl inv ord ResponseWriter.fresh r).body = fmtD p ++ "\n")
    ∧ decimalInt (fmtD p) = some p := by
  have hp : Shop3.price tbl inv ResponseWriter.fresh r = ⟨[], some 200, fmtD p ++ "\n"⟩ := by
    rw [price_of_key tbl inv _ r p (by rw [hitem]; exact hkey), Write_fresh]
  refine ⟨by rw [hp]; rfl, by rw [hp], ?_, decimalInt_fmtD p⟩
  intro hpath ord
  rw [ServeHTTP_price tbl inv ord _ r hpath, hp]
  exact ⟨rfl, rfl⟩

/-- C1 at the inventory of variant 3 and the request `GET /price?item=shoes`: status
200 and body `50` followed by a newline, in both variants. -/
theorem C1_price_of_present_item_witness :
    Shop3.inv.get? "shoes" = some 50
    ∧ getPriceShoes.Query.Get "item" = "shoes"
    ∧ fmtD 50 ++ "\n" = "50\n"
    ∧ (Shop3.price allPrintable Shop3.inv ResponseWriter.fresh getPriceShoes).Code = 200
    ∧ (Shop3.price allPrintable Shop3.inv ResponseWriter.fresh getPriceShoes).body = "50\n"
    ∧ (Shop2.ServeHTTP allPrintable Shop3.inv shoesFirst ResponseWriter.fresh
        getPriceShoes).Code = 200
    ∧ (Shop2.ServeHTTP allPrintable Shop3.inv shoesFirst ResponseWriter.fresh
        getPriceShoes).body = "50\n" :=
  have h := C1_price_of_present_item allPrintable Shop3.inv "shoes" 50 getPriceShoes
    (by decide) (by decide)
  ⟨by decide, by decide, by decide, h.1, h.2.1, (h.2.2.1 (by decide) shoesFirst).1,
    (h.2.2.1 (by decide) shoesFirst).2⟩

/-- C2: for every inventory and every request, the price lookup answers with status
404 exactly when the request's `item` query value is not a key of the inventory, in
variant 3's `inventory.price` and in variant 2's `/price` branch; the value is the empty
string when the parameter is absent; and whenever the value is a key, whatever its
price, the handler sets no header, writes no error status, and the price line is all
it writes. -/
theorem C2_not_found_iff_absent (tbl : Char → Bool) (inv : inventory) (r : Request) :
    ((Shop3.price tbl inv ResponseWriter.fresh r).Code = 404
        ↔ inv.get? (r.Query.Get "item") = none)
    ∧ (r.Path = "/price" → ∀ ord : inv.Order,
        ((Shop2.ServeHTTP tbl inv ord ResponseWriter.fresh r).Code = 404
          ↔ inv.get? (r.Query.Get "item") = none))
    ∧ (r.Query.m.lookup "item" = none → r.Query.Get "item" = "")
    ∧ (∀ p : Int, inv.get? (r.Query.Get "item") = some p →
        Shop3.price tbl inv ResponseWriter.fresh r = ⟨[], some 200, fmtD p ++ "\n"⟩
        ∧ (r.Path = "/price" → ∀ ord : inv.Order,
            Shop2.ServeHTTP tbl inv ord ResponseWriter.fresh r
              = ⟨[], some 200, fmtD p ++ "\n"⟩)) := by
  have hiff : (Shop3.price tbl inv ResponseWriter.fresh r).Code = 404
      ↔ inv.get? (r.Query.Get "item") = none := by
    cases hget : inv.get? (r.Query.Get "item") with
    | none =>
      rw [price_of_absent tbl inv _ r hget, Error_fresh]
      simp [ResponseWriter.Code, StatusNotFound]
    | some p =>
      rw [price_of_key tbl inv _ r p hget, Write_fresh]
      simp [ResponseWriter.Code]
  refine ⟨hiff, ?_, ?_, ?_⟩
  · intro hpath ord
    rw [ServeHTTP_price tbl inv ord _ r hpath]
    exact hiff
  · intro habsent
    simp [Values.Get, habsent]
  · intro p hget
    have hp : Shop3.price tbl inv ResponseWriter.fresh r = ⟨[], some 200, fmtD p ++ "\n"⟩ := by
      rw [price_of_key tbl inv _ r p hget, Write_fresh]
    refine ⟨hp, ?_⟩
    intro hpath ord
    rw [ServeHTTP_price tbl inv ord _ r hpath, hp]

/-- C2 at concrete requests: an item priced 0 is found (status 200, body `0` and a
newline), an unknown item and a missing parameter give 404. -/
theorem C2_not_found_iff_absent_witness :
    Shop3.price allPrintable freebies ResponseWriter.fresh getPriceFlyer = ⟨[], some 200, "0\n"⟩
    ∧ (Shop3.price allPrintable Shop3.inv ResponseWriter.fresh getPriceBoots).Code = 404
    ∧ getPriceNoItem.Query.Get "item" = ""
    ∧ (Shop3.price allPrintable Shop3.inv ResponseWriter.fresh getPriceNoItem).Code = 404 :=
  ⟨((C2_not_found_iff_absent allPrintable freebies getPriceFlyer).2.2.2 0 (by decide)).1,
    (C2_not_found_iff_absent allPrintable Shop3.inv getPriceBoots).1.mpr (by decide),
    (C2_not_found_iff_absent allPrintable Shop3.inv getPriceNoItem).2.2.1 (by decide),
    (C2_not_found_iff_absent allPrintable Shop3.inv getPriceNoItem).1.mpr (by decide)⟩

/-- C3, refuted as stated: the body of the 404 response is not the message alone.
For the missing `item` parameter the body is `no such item: ""` followed by a newline,
which `http.Error` adds; for the value `a"b` the quote inside the value is escaped by
`%q`, so the body is `no such item: "a\"b"` and a newline, and not the value between
two quotes exactly as supplied, with or without the newline. -/
theorem C3_counterexample :
    Shop3.inv.get? (getPriceNoItem.Query.Get "item") = none
    ∧ (Shop3.price allPrintable Shop3.inv ResponseWriter.fresh getPriceNoItem).Code = 404
    ∧ (Shop3.price allPrintable Shop3.inv ResponseWriter.fresh getPriceNoItem).body
        = "no such item: \"\"\n"
    ∧ (Shop3.price allPrintable Shop3.inv ResponseWriter.fresh getPriceNoItem).body
        ≠ "no such item: \"\""
    ∧ (Shop3.price allPrintable Shop3.inv ResponseWriter.fresh getPriceBoots).body
        ≠ "no such item: \"boots\""
    ∧ getPriceQuoted.Query.Get "item" = "a\"b"
    ∧ Shop3.inv.get? "a\"b" = none
    ∧ (Shop3.price allPrintable Shop3.inv ResponseWriter.fresh getPriceQuoted).body
        = "no such item: \"a\\\"b\"\n"
    ∧ (Shop3.price allPrintable Shop3.inv ResponseWriter.fresh getPriceQuoted).body
        ≠ "no such item: \"" ++ "a\"b" ++ "\""
    ∧ (Shop3.price allPrintable Shop3.inv ResponseWriter.fresh getPriceQuoted).body
        ≠ "no such item: \"" ++ "a\"b" ++ "\"" ++ "\n"
    ∧ (Shop2.ServeHTTP allPrintable Shop3.inv shoesFirst ResponseWriter.fresh
        getPriceNoItem).body ≠ "no such item: \"\"" := by
  decide

/-- C3, amended: for every string `S` that is not a key of the inventory, the price
lookup on a request whose `item` query value is `S` answers with status 404 and a body
that is `no such item: `, then `S` as `%q` quotes it, then one newline, in variant 3's
`inventory.price` and in variant 2's `/price` branch; and `S` quoted is a double quote,
the characters of `S` exactly as supplied, and a closing double quote exactly when every
character of `S` is printable and is neither a double quote nor a backslash. -/
theorem C3_not_found_body (tbl : Char → Bool) (inv : inventory) (S : String) (r : Request)
    (hS : inv.get? S = none) (hitem : r.Query.Get "item" = S) :
    (Shop3.price tbl inv ResponseWriter.fresh r).Code = 404
    ∧ (Shop3.price tbl inv ResponseWriter.fresh r).body
        = "no such item: " ++ Quote tbl S ++ "\n"
    ∧ (r.Path = "/price" → ∀ ord : inv.Order,
        (Shop2.ServeHTTP tbl inv ord ResponseWriter.fresh r).Code = 404
        ∧ (Shop2.ServeHTTP tbl inv ord ResponseWriter.fresh r).body
            = "no such item: " ++ Quote tbl S ++ "\n")
    ∧ (Quote tbl S = "\"" ++ S ++ "\""
        ↔ ∀ c ∈ S.data, IsPrint tbl c = true ∧ c ≠ dquote ∧ c ≠ backslash) := by
  have hp : Shop3.price tbl inv ResponseWriter.fresh r =
      ⟨[("X-Content-Type-Options", "nosniff"), ("Content-Type", "text/plain; charset=utf-8")],
        some 404, "no such item: " ++ Quote tbl S ++ "\n"⟩ := by
    rw [price_of_absent tbl inv _ r (by rw [hitem]; exact hS), Error_fresh, hitem]
    rfl
  refine ⟨by rw [hp]; rfl, by rw [hp], ?_, Quote_eq_plain_iff tbl S⟩
  intro hpath ord
  rw [ServeHTTP_price tbl inv ord _ r hpath, hp]
  exact ⟨rfl, rfl⟩

/-- C3, amended, at the inventory of variant 3: the value `boots` gives status 404 and
the body `no such item: "boots"` followed by a newline, `boots` quoted being `boots`
between two double quotes; the missing parameter gives the body `no such item: ""`
followed by a newline. -/
theorem C3_not_found_body_witness :
    Shop3.inv.get? "boots" = none
    ∧ getPriceBoots.Query.Get "item" = "boots"
    ∧ (Shop3.price allPrintable Shop3.inv ResponseWriter.fresh getPriceBoots).Code = 404
    ∧ (Shop3.price allPrintable Shop3.inv ResponseWriter.fresh getPriceBoots).body
        = "no such item: " ++ Quote allPrintable "boots" ++ "\n"
    ∧ Quote allPrintable "boots" = "\"" ++ "boots" ++ "\""
    ∧ "no such item: " ++ ("\"" ++ "boots" ++ "\"") ++ "\n" = "no such item: \"boots\"\n"
    ∧ Shop3.inv.get? "" = none
    ∧ getPriceNoItem.Query.Get "item" = ""
    ∧ (Shop3.price allPrintable Shop3.inv ResponseWriter.fresh getPriceNoItem).body
        = "no such item: " ++ Quote allPrintable "" ++ "\n"
    ∧ "no such item: " ++ Quote allPrintable "" ++ "\n" = "no such item: \"\"\n" :=
  have h := C3_not_found_body allPrintable Shop3.inv "boots" getPriceBoots
    (by decide) (by decide)
  have h0 := C3_not_found_body allPrintable Shop3.inv "" getPriceNoItem
    (by decide) (by decide)
  ⟨by decide, by decide, h.1, h.2.1, h.2.2.2.mpr (by decide), by decide, by decide, by decide,
    h0.2.1, by decide⟩

/-! ## The list operation -/

theorem Write_eq (w : ResponseWriter) (p : String) :
    w.Write p = ⟨w.header, some (w.status.getD 200), w.body ++ p⟩ := by
  cases w with
  | mk header status body =>
    cases status <;> simp [ResponseWriter.Write, ResponseWriter.WriteHeader]

theorem foldl_Write_cons (e : String × Int) (es : List (String × Int)) :
    ∀ w : ResponseWriter,
      (e :: es).foldl (fun w e => w.Write (listLine e.1 e.2)) w =
        ⟨w.header, some (w.status.getD 200),
          w.body ++ String.join ((e :: es).map fun e => listLine e.1 e.2)⟩ := by
  induction es generalizing e with
  | nil =>
    intro w
    simp only [List.foldl_cons, List.foldl_nil, Write_eq, List.map_cons, List.map_nil]
    have hjoin : w.body ++ listLine e.1 e.2 = w.body ++ String.join [listLine e.1 e.2] := by
      apply String.ext
      simp
    rw [hjoin]
  | cons e2 es ih =>
    intro w
    rw [List.foldl_cons, ih e2 (w.Write (listLine e.1 e.2)), Write_eq]
    have hjoin : w.body ++ listLine e.1 e.2
          ++ String.join ((e2 :: es).map fun e => listLine e.1 e.2)
        = w.body ++ String.join ((e :: e2 :: es).map fun e => listLine e.1 e.2) := by
      apply String.ext
      simp
    simp only [Option.getD_some]
    rw [hjoin]

theorem foldl_Write_fresh (es : List (String × Int)) :
    (es.foldl (fun w e => w.Write (listLine e.1 e.2)) ResponseWriter.fresh).Code = 200
    ∧ (es.foldl (fun w e => w.Write (listLine e.1 e.2)) ResponseWriter.fresh).header = []
    ∧ (es.foldl (fun w e => w.Write (listLine e.1 e.2)) ResponseWriter.fresh).body =
        String.join (es.map fun e => listLine e.1 e.2) := by
  cases es with
  | nil => exact ⟨rfl, rfl, rfl⟩
  | cons e es =>
    rw [foldl_Write_cons]
    refine ⟨rfl, rfl, ?_⟩
    apply String.ext
    simp [ResponseWriter.fresh]

theorem splitLines_newline (cur rest : List Char) :
    splitLines cur ('\n' :: rest) =
      (String.mk cur.reverse :: (splitLines [] rest).1, (splitLines [] rest).2) := by
  rw [splitLines, if_pos rfl]

theorem splitLines_other (c : Char) (hc : c ≠ '\n') (cur rest : List Char) :
    splitLines cur (c :: rest) = splitLines (c :: cur) rest := by
  rw [splitLines, if_neg hc]

theorem splitLines_line (l : List Char) (hl : '\n' ∉ l) :
    ∀ (cur rest : List Char),
      splitLines cur (l ++ '\n' :: rest) =
        (String.mk (cur.reverse ++ l) :: (splitLines [] rest).1, (splitLines [] rest).2) := by
  induction l with
  | nil =>
    intro cur rest
    rw [List.nil_append, splitLines_newline, List.append_nil]
  | cons c cs ih =>
    intro cur rest
    have hc : c ≠ '\n' := fun h => hl (by rw [h]; exact List.mem_cons_self _ _)
    have hcs : '\n' ∉ cs := fun h => hl (List.mem_cons_of_mem _ h)
    rw [List.cons_append, splitLines_other c hc, ih hcs (c :: cur) rest]
    simp

theorem splitLines_lines (ls : List String) (h : ∀ l ∈ ls, '\n' ∉ l.data) :
    splitLines [] ((ls.map fun l => l.data ++ ['\n']).flatten) = (ls, "") := by
  induction ls with
  | nil => rfl
  | cons l ls ih =>
    have hl := h l (List.mem_cons_self _ _)
    have hls := ih (fun x hx => h x (List.mem_cons_of_mem _ hx))
    rw [List.map_cons, List.flatten_cons, List.append_assoc, List.singleton_append,
      splitLines_line l.data hl, hls]
    simp

theorem listLine_eq (e : String × Int) : listLine e.1 e.2 = entryText e ++ "\n" := rfl

theorem newline_not_mem_entryText (e : String × Int) (h : '\n' ∉ e.1.data) :
    '\n' ∉ (entryText e).data := by
  simp only [entryText, String.data_append, List.mem_append, not_or]
  exact ⟨⟨h, by decide⟩, newline_not_mem_fmtD e.2⟩

theorem lookup_eq_some_iff (l : List (String × Int)) (nd : (l.map Prod.fst).Nodup)
    (k : String) (v : Int) : l.lookup k = some v ↔ (k, v) ∈ l := by
  induction l with
  | nil => simp
  | cons e es ih =>
    obtain ⟨k2, v2⟩ := e
    simp only [List.map_cons, List.nodup_cons] at nd
    by_cases hk : k = k2
    · subst hk
      simp only [List.lookup_cons, beq_self_eq_true, List.mem_cons, Prod.mk.injEq, true_and,
        Option.some.injEq]
      constructor
      · intro hv; exact Or.inl hv.symm
      · rintro (hv | hmem)
        · exact hv.symm
        · exact absurd (List.mem_map_of_mem Prod.fst hmem) nd.1
    · have hbeq : (k == k2) = false := by simpa using hk
      simp only [List.lookup_cons, hbeq, List.mem_cons, Prod.mk.injEq, hk, false_and, false_or]
      exact ih nd.2

theorem bodyLines_list (es : List (String × Int)) (h : ∀ e ∈ es, '\n' ∉ e.1.data) :
    bodyLines (String.join (es.map fun e => listLine e.1 e.2)) = (es.map entryText, "") := by
  unfold bodyLines
  have hdata : (String.join (es.map fun e => listLine e.1 e.2)).data =
      (((es.map entryText).map fun l => l.data ++ ['\n']).flatten) := by
    rw [String.data_join]
    simp only [List.map_map]
    rfl
  rw [hdata]
  apply splitLines_lines
  intro l hl
  obtain ⟨e, he, rfl⟩ := List.mem_map.mp hl
  exact newline_not_mem_entryText e (h e he)

/-- C4: for every inventory whose item names contain no newline, and every order in
which the map is enumerated, the body the list operation writes consists of
newline-terminated lines only, as many as the inventory has entries; the lines are
the texts `item: price` of the entries (price in decimal), each entry once; a text is a
line exactly when it is `item: price` for an item of the inventory and its price; and
variant 1's `ServeHTTP`, variant 2's `/list` branch and variant 3's `inventory.list`
write the same response, with status 200. -/
theorem C4_list_lines (tbl : Char → Bool) (inv : inventory) (ord : inv.Order) (r : Request)
    (hnl : ∀ e ∈ inv.entries, '\n' ∉ e.1.data) :
    (bodyLines (Shop3.list inv ord ResponseWriter.fresh r).body).2 = ""
    ∧ (Shop3.list inv ord ResponseWriter.fresh r).body = String.join
        ((bodyLines (Shop3.list inv ord ResponseWriter.fresh r).body).1.map fun l => l ++ "\n")
    ∧ (bodyLines (Shop3.list inv ord ResponseWriter.fresh r).body).1.length = inv.len
    ∧ (bodyLines (Shop3.list inv ord ResponseWriter.fresh r).body).1.Perm
        (inv.entries.map entryText)
    ∧ (∀ l : String, l ∈ (bodyLines (Shop3.list inv ord ResponseWriter.fresh r).body).1
        ↔ ∃ item price, inv.get? item = some price ∧ l = item ++ ": " ++ fmtD price)
    ∧ (Shop3.list inv ord ResponseWriter.fresh r).Code = 200
    ∧ Shop1.ServeHTTP inv ord ResponseWriter.fresh r = Shop3.list inv ord ResponseWriter.fresh r
    ∧ (r.Path = "/list" → Shop2.ServeHTTP tbl inv ord ResponseWriter.fresh r
        = Shop3.list inv ord ResponseWriter.fresh r) := by
  have hord : ∀ e ∈ ord.val, '\n' ∉ e.1.data := fun e he => hnl e (ord.property.mem_iff.mp he)
  obtain ⟨hcode, -, hbody⟩ := foldl_Write_fresh ord.val
  have hlines : bodyLines (Shop3.list inv ord ResponseWriter.fresh r).body
      = (ord.val.map entryText, "") := by
    unfold Shop3.list
    rw [hbody]
    exact bodyLines_list ord.val hord
  rw [hlines]
  refine ⟨rfl, ?_, ?_, ?_, ?_, hcode, rfl, ?_⟩
  · unfold Shop3.list
    rw [hbody]
    simp only [List.map_map]
    rfl
  · simp only [List.length_map, inventory.len]
    exact ord.property.length_eq
  · exact ord.property.map entryText
  · intro l
    simp only [List.mem_map, inventory.get?]
    constructor
    · rintro ⟨e, he, rfl⟩
      refine ⟨e.1, e.2, ?_, rfl⟩
      exact (lookup_eq_some_iff inv.entries inv.nodup e.1 e.2).mpr (ord.property.mem_iff.mp he)
    · rintro ⟨item, price, hget, rfl⟩
      exact ⟨(item, price),
        ord.property.mem_iff.mpr ((lookup_eq_some_iff inv.entries inv.nodup item price).mp hget),
        rfl⟩
  · intro hpath
    exact ServeHTTP_list tbl inv ord _ r hpath

/-- C4 at the inventory of variant 3, enumerated socks first: the body is the two lines
`socks: 5` and `shoes: 50`, each ended by a newline. -/
theorem C4_list_lines_witness :
    (∀ e ∈ Shop3.inv.entries, '\n' ∉ e.1.data)
    ∧ (Shop3.list Shop3.inv socksFirst ResponseWriter.fresh getList).body
        = "socks: 5\nshoes: 50\n"
    ∧ bodyLines "socks: 5\nshoes: 50\n" = (["socks: 5", "shoes: 50"], "")
    ∧ (bodyLines (Shop3.list Shop3.inv socksFirst ResponseWriter.fresh getList).body).1.length
        = Shop3.inv.len
    ∧ (bodyLines (Shop3.list Shop3.inv socksFirst ResponseWriter.fresh getList).body).1.Perm
        (Shop3.inv.entries.map entryText)
    ∧ Shop3.inv.entries.map entryText = ["shoes: 50", "socks: 5"] :=
  have h := C4_list_lines allPrintable Shop3.inv socksFirst getList (by decide)
  ⟨by decide, by decide, by decide, h.2.2.1, h.2.2.2.1, by decide⟩

/-! ## Routing -/

theorem ServeHTTP_other (tbl : Char → Bool) (inv : inventory) (ord : inv.Order)
    (w : ResponseWriter) (r : Request) (hl : r.Path ≠ "/list") (hp : r.Path ≠ "/price") :
    Shop2.ServeHTTP tbl inv ord w r = w := by
  simp [Shop2.ServeHTTP, hl, hp]

/-- C5: in variant 2's `ServeHTTP`, for every inventory, enumeration order, writer and
request, exactly one of three things happens: the path is `/list` and the handler does
what the list operation does; the path is `/price` and it does what the price lookup
does; or the path is neither and the writer is left as it was.  In the last case a
fresh writer keeps an empty body and no status, so the response has status 200; this
covers the paths `/`, the empty path, `/list/`, `/List` and `/price/x`. -/
theorem C5_routing (tbl : Char → Bool) (inv : inventory) (ord : inv.Order)
    (w : ResponseWriter) (r : Request) :
    ((r.Path = "/list" ∧ Shop2.ServeHTTP tbl inv ord w r = Shop3.list inv ord w r)
      ∨ (r.Path = "/price" ∧ Shop2.ServeHTTP tbl inv ord w r = Shop3.price tbl inv w r)
      ∨ (r.Path ≠ "/list" ∧ r.Path ≠ "/price" ∧ Shop2.ServeHTTP tbl inv ord w r = w))
    ∧ (r.Path ≠ "/list" → r.Path ≠ "/price" →
        (Shop2.ServeHTTP tbl inv ord ResponseWriter.fresh r).body = ""
        ∧ (Shop2.ServeHTTP tbl inv ord ResponseWriter.fresh r).status = none
        ∧ (Shop2.ServeHTTP tbl inv ord ResponseWriter.fresh r).header = []
        ∧ (Shop2.ServeHTTP tbl inv ord ResponseWriter.fresh r).Code = 200)
    ∧ (∀ p ∈ ["/", "", "/list/", "/List", "/price/x"],
        ∀ (method uri escaped : String) (q : Values),
          Shop2.ServeHTTP tbl inv ord w ⟨method, uri, p, escaped, q⟩ = w) := by
  refine ⟨?_, ?_, ?_⟩
  · by_cases hl : r.Path = "/list"
    · exact Or.inl ⟨hl, ServeHTTP_list tbl inv ord w r hl⟩
    · by_cases hp : r.Path = "/price"
      · exact Or.inr (Or.inl ⟨hp, ServeHTTP_price tbl inv ord w r hp⟩)
      · exact Or.inr (Or.inr ⟨hl, hp, ServeHTTP_other tbl inv ord w r hl hp⟩)
  · intro hl hp
    rw [ServeHTTP_other tbl inv ord _ r hl hp]
    exact ⟨rfl, rfl, rfl, rfl⟩
  · intro p hmem method uri escaped q
    apply ServeHTTP_other
    · intro h
      rw [show (Request.mk method uri p escaped q).Path = p from rfl] at h
      subst h
      revert hmem
      decide
    · intro h
      rw [show (Request.mk method uri p escaped q).Path = p from rfl] at h
      subst h
      revert hmem
      decide

/-- C5 at the request `GET /` and the inventory of variant 2: nothing is written. -/
theorem C5_routing_witness :
    Shop2.ServeHTTP allPrintable Shop2.inv ⟨Shop2.inv.entries, List.Perm.refl _⟩
        ResponseWriter.fresh getRoot = ResponseWriter.fresh
    ∧ (Shop2.ServeHTTP allPrintable Shop2.inv ⟨Shop2.inv.entries, List.Perm.refl _⟩
        ResponseWriter.fresh getRoot).Code = 200 :=
  ⟨(C5_routing allPrintable Shop2.inv ⟨Shop2.inv.entries, List.Perm.refl _⟩
      ResponseWriter.fresh getRoot).2.2 "/" (by decide) "GET" "/" "/" ⟨[]⟩,
    ((C5_routing allPrintable Shop2.inv ⟨Shop2.inv.entries, List.Perm.refl _⟩
      ResponseWriter.fresh getRoot).2.1 (by decide) (by decide)).2.2.2⟩

theorem mux_lookup (tbl : Char → Bool) (inv : inventory) (ord : inv.Order) (path : String) :
    (Shop3.mux tbl inv ord).m.lookup path =
      if path = "/list" then some (Shop3.list inv ord)
      else if path = "/price" then some (Shop3.price tbl inv) else none := by
  by_cases hl : path = "/list"
  · subst hl
    simp [Shop3.mux, ServeMux.HandleFunc, DefaultServeMux, List.lookup]
  · by_cases hp : path = "/price"
    · subst hp
      have hne : ("/price" == "/list") = false := by decide
      simp [Shop3.mux, ServeMux.HandleFunc, DefaultServeMux, List.lookup, hne]
    · have hl2 : (path == "/list") = false := by simpa using hl
      have hp2 : (path == "/price") = false := by simpa using hp
      simp [Shop3.mux, ServeMux.HandleFunc, DefaultServeMux, List.lookup, hl, hp, hl2, hp2]

theorem NotFound_fresh (r : Request) :
    NotFound ResponseWriter.fresh r = ⟨errorHeader, some 404, "404 page not found\n"⟩ := by
  unfold NotFound
  rw [Error_fresh]
  rfl

theorem mux_ServeHTTP_other (tbl : Char → Bool) (inv : inventory) (ord : inv.Order)
    (r : Request) (hl : r.Path ≠ "/list") (hp : r.Path ≠ "/price") :
    (Shop3.mux tbl inv ord).ServeHTTP ResponseWriter.fresh r = MuxResult.badRequest
    ∨ (Shop3.mux tbl inv ord).ServeHTTP ResponseWriter.fresh r
        = MuxResult.redirect (cleanPath r.EscapedPath)
    ∨ (r.RequestURI ≠ "*"
        ∧ (Shop3.mux tbl inv ord).ServeHTTP ResponseWriter.fresh r
          = MuxResult.served "" ⟨errorHeader, some 404, "404 page not found\n"⟩) := by
  unfold ServeMux.ServeHTTP ServeMux.route
  by_cases huri : r.RequestURI = "*"
  · left
    rw [if_pos huri]
  · by_cases hclean : r.Method ≠ "CONNECT" ∧ cleanPath r.EscapedPath ≠ r.EscapedPath
    · right; left
      rw [if_neg huri, if_pos hclean]
    · right; right
      refine ⟨huri, ?_⟩
      rw [if_neg huri, if_neg hclean, mux_lookup, if_neg hl, if_neg hp]
      simp only []
      rw [NotFound_fresh]

theorem mux_ServeHTTP_canonical (tbl : Char → Bool) (inv : inventory) (ord : inv.Order)
    (r : Request) (hl : r.Path ≠ "/list") (hp : r.Path ≠ "/price")
    (huri : r.RequestURI ≠ "*") (hclean : cleanPath r.EscapedPath = r.EscapedPath) :
    (Shop3.mux tbl inv ord).ServeHTTP ResponseWriter.fresh r
      = MuxResult.served "" ⟨errorHeader, some 404, "404 page not found\n"⟩ := by
  unfold ServeMux.ServeHTTP ServeMux.route
  rw [if_neg huri, if_neg (fun h => h.2 hclean), mux_lookup, if_neg hl, if_neg hp]
  simp only []
  rw [NotFound_fresh]

/-- C6, refuted as stated: in variant 3 the request `GET /`, whose path is neither
`/list` nor `/price`, is answered with status 404 and the body `404 page not found`
followed by a newline, written by `http.NotFound`, and not with an empty body and
status 200. -/
theorem C6_counterexample :
    getRoot.Path ≠ "/list" ∧ getRoot.Path ≠ "/price"
    ∧ Shop3.serve allPrintable Shop3.inv shoesFirst getRoot
        = ServerResult.handled
            (MuxResult.served "" ⟨errorHeader, some 404, "404 page not found\n"⟩)
    ∧ (NotFound ResponseWriter.fresh getRoot).Code = 404
    ∧ (NotFound ResponseWriter.fresh getRoot).Code ≠ 200
    ∧ (NotFound ResponseWriter.fresh getRoot).body = "404 page not found\n"
    ∧ (NotFound ResponseWriter.fresh getRoot).body ≠ "" := by
  decide

/-- C6, amended: in variant 3, a request whose path is neither `/list` nor `/price` is
never handed to `inventory.list` or `inventory.price`: whenever the multiplexer has a
handler serve it, the handler is `http.NotFound` (no pattern), and the response has
status 404 and the body `404 page not found` followed by a newline.  This is what
happens to every such request whose request target is not `*` and whose path, escaped
and unescaped, is in canonical form. -/
theorem C6_unmatched_path (tbl : Char → Bool) (inv : inventory) (ord : inv.Order)
    (r : Request) (hl : r.Path ≠ "/list") (hp : r.Path ≠ "/price") :
    (∀ (pattern : String) (w : ResponseWriter),
        Shop3.serve tbl inv ord r = ServerResult.handled (MuxResult.served pattern w) →
          pattern = "" ∧ w = NotFound ResponseWriter.fresh r
          ∧ w.Code = 404 ∧ w.body = "404 page not found\n")
    ∧ (r.RequestURI ≠ "*" → cleanPath r.EscapedPath = r.EscapedPath →
        cleanPath r.Path = r.Path →
        Shop3.serve tbl inv ord r
          = ServerResult.handled
              (MuxResult.served "" ⟨errorHeader, some 404, "404 page not found\n"⟩)) := by
  constructor
  · intro pattern w hserve
    unfold Shop3.serve serverHandler at hserve
    split_ifs at hserve with hopt
    simp only [ServerResult.handled.injEq] at hserve
    rcases mux_ServeHTTP_other tbl inv ord r hl hp with h | h | ⟨-, h⟩
    · rw [h] at hserve; exact MuxResult.noConfusion hserve
    · rw [h] at hserve; exact MuxResult.noConfusion hserve
    · rw [h] at hserve
      simp only [MuxResult.served.injEq] at hserve
      obtain ⟨hpat, hw⟩ := hserve
      refine ⟨hpat.symm, ?_, ?_, ?_⟩
      · rw [← hw, NotFound_fresh]
      · rw [← hw]; rfl
      · rw [← hw]
  · intro huri hclean _
    unfold Shop3.serve serverHandler
    rw [if_neg (fun h => huri h.1), mux_ServeHTTP_canonical tbl inv ord r hl hp huri hclean]

/-- C6, amended, at concrete requests to variant 3: `POST /anything?x=1` gets status
404 and the body `404 page not found` with a newline.  The request `OPTIONS *`, which
the server answers itself with an empty body and status 200, is not covered. -/
theorem C6_unmatched_path_witness :
    postAnything.Path ≠ "/list" ∧ postAnything.Path ≠ "/price"
    ∧ postAnything.RequestURI ≠ "*"
    ∧ cleanPath postAnything.EscapedPath = postAnything.EscapedPath
    ∧ cleanPath postAnything.Path = postAnything.Path
    ∧ Shop3.serve allPrintable Shop3.inv shoesFirst postAnything
        = ServerResult.handled
            (MuxResult.served "" ⟨errorHeader, some 404, "404 page not found\n"⟩)
    ∧ (∀ p ∈ ["/", "/list/", "/List", "/price/x"],
        cleanPath p = p ∧ p ≠ "/list" ∧ p ≠ "/price")
    ∧ Shop3.serve allPrintable Shop3.inv shoesFirst optionsStar
        = ServerResult.generalOptions ⟨[("Content-Length", "0")], none, ""⟩ :=
  ⟨by decide, by decide, by decide, by decide, by decide,
    (C6_unmatched_path allPrintable Shop3.inv shoesFirst postAnything (by decide)
      (by decide)).2 (by decide) (by decide) (by decide),
    by decide, by decide⟩

/-! ## Independence of the request, repeated calls, and the inventory over time -/

/-- C7, refuted as stated: the responses of variant 1 to two requests need not be
equal.  Serving `GET /` with the map enumerated shoes first gives the body `shoes: 10`,
`socks: 5`; serving `POST /anything?x=1` with the map enumerated socks first gives the
body `socks: 5`, `shoes: 10`. -/
theorem C7_counterexample :
    (Shop1.ServeHTTP Shop1.inv shoesFirst1 ResponseWriter.fresh getRoot).body
        = "shoes: 10\nsocks: 5\n"
    ∧ (Shop1.ServeHTTP Shop1.inv socksFirst1 ResponseWriter.fresh postAnything).body
        = "socks: 5\nshoes: 10\n"
    ∧ Shop1.ServeHTTP Shop1.inv shoesFirst1 ResponseWriter.fresh getRoot
        ≠ Shop1.ServeHTTP Shop1.inv socksFirst1 ResponseWriter.fresh postAnything := by
  decide

/-- C7, amended: variant 1's `ServeHTTP` ignores the request.  For every inventory and
every two requests, served with the map enumerated in the orders `ord1` and `ord2`:
both responses have status 200 and no header set by the handler; each body is the list
output for the inventory, its lines in the order of that enumeration, so the two bodies
hold the same lines, each the same number of times; the two responses are equal when
the two enumerations are the same; and under one enumeration the response is the same
for every request, and is what the list operation writes. -/
theorem C7_request_ignored (inv : inventory) (ord1 ord2 : inv.Order) (w : ResponseWriter)
    (r1 r2 : Request) :
    (Shop1.ServeHTTP inv ord1 ResponseWriter.fresh r1).Code = 200
    ∧ (Shop1.ServeHTTP inv ord2 ResponseWriter.fresh r2).Code = 200
    ∧ (Shop1.ServeHTTP inv ord1 ResponseWriter.fresh r1).header = []
    ∧ (Shop1.ServeHTTP inv ord2 ResponseWriter.fresh r2).header = []
    ∧ (Shop1.ServeHTTP inv ord1 ResponseWriter.fresh r1).body
        = String.join (ord1.val.map fun e => listLine e.1 e.2)
    ∧ (Shop1.ServeHTTP inv ord2 ResponseWriter.fresh r2).body
        = String.join (ord2.val.map fun e => listLine e.1 e.2)
    ∧ (ord1.val.map fun e => listLine e.1 e.2).Perm (ord2.val.map fun e => listLine e.1 e.2)
    ∧ (ord1.val = ord2.val → Shop1.ServeHTTP inv ord1 w r1 = Shop1.ServeHTTP inv ord2 w r2)
    ∧ Shop1.ServeHTTP inv ord1 w r1 = Shop1.ServeHTTP inv ord1 w r2
    ∧ Shop1.ServeHTTP inv ord1 w r1 = Shop3.list inv ord1 w r2 := by
  obtain ⟨hc1, hh1, hb1⟩ := foldl_Write_fresh ord1.val
  obtain ⟨hc2, hh2, hb2⟩ := foldl_Write_fresh ord2.val
  refine ⟨hc1, hc2, hh1, hh2, hb1, hb2, ?_, ?_, rfl, rfl⟩
  · exact (ord1.property.trans ord2.property.symm).map _
  · intro hsame
    unfold Shop1.ServeHTTP
    rw [hsame]

/-- C7, amended, at the inventory of variant 1 and the requests `GET /` and
`POST /anything?x=1`: under the same enumeration the two responses are equal, and under
the two different enumerations they have the same status and the same lines. -/
theorem C7_request_ignored_witness :
    Shop1.ServeHTTP Shop1.inv shoesFirst1 ResponseWriter.fresh getRoot
        = Shop1.ServeHTTP Shop1.inv shoesFirst1 ResponseWriter.fresh postAnything
    ∧ (Shop1.ServeHTTP Shop1.inv socksFirst1 ResponseWriter.fresh postAnything).Code = 200
    ∧ (shoesFirst1.val.map fun e => listLine e.1 e.2).Perm
        (socksFirst1.val.map fun e => listLine e.1 e.2) :=
  have h := C7_request_ignored Shop1.inv shoesFirst1 socksFirst1 ResponseWriter.fresh
    getRoot postAnything
  ⟨h.2.2.2.2.2.2.2.2.1, h.2.1, h.2.2.2.2.2.2.1⟩

/-- C8, refuted as stated: two calls of the list operation on the unchanged inventory
of variant 3 need not give the same body.  Enumerating the map shoes first gives
`shoes: 50`, `socks: 5`; enumerating it socks first gives `socks: 5`, `shoes: 50`. -/
theorem C8_counterexample :
    (Shop3.list Shop3.inv shoesFirst ResponseWriter.fresh getList).body
        = "shoes: 50\nsocks: 5\n"
    ∧ (Shop3.list Shop3.inv socksFirst ResponseWriter.fresh getList).body
        = "socks: 5\nshoes: 50\n"
    ∧ (Shop3.list Shop3.inv shoesFirst ResponseWriter.fresh getList).body
        ≠ (Shop3.list Shop3.inv socksFirst ResponseWriter.fresh getList).body
    ∧ (Shop2.ServeHTTP allPrintable Shop3.inv shoesFirst ResponseWriter.fresh getList).body
        ≠ (Shop2.ServeHTTP allPrintable Shop3.inv socksFirst ResponseWriter.fresh getList).body := by
  decide

/-- C8, amended: on the unchanged inventory, two price lookups with the same `item`
value give the same response, status and body byte for byte, in variant 3's
`inventory.price` and in variant 2's `/price` branch; two calls of the list operation
give the same status and headers, and bodies made of the same lines, each the same
number of times, in the order in which each call enumerates the map; the two bodies
are the same byte for byte when the two calls enumerate the map in the same order. -/
theorem C8_repeated_calls (tbl : Char → Bool) (inv : inventory) (ord1 ord2 : inv.Order)
    (r1 r2 : Request) (hitem : r1.Query.Get "item" = r2.Query.Get "item") :
    Shop3.price tbl inv ResponseWriter.fresh r1 = Shop3.price tbl inv ResponseWriter.fresh r2
    ∧ (r1.Path = "/price" → r2.Path = "/price" →
        Shop2.ServeHTTP tbl inv ord1 ResponseWriter.fresh r1
          = Shop2.ServeHTTP tbl inv ord2 ResponseWriter.fresh r2)
    ∧ (Shop3.list inv ord1 ResponseWriter.fresh r1).Code
        = (Shop3.list inv ord2 ResponseWriter.fresh r2).Code
    ∧ (Shop3.list inv ord1 ResponseWriter.fresh r1).header
        = (Shop3.list inv ord2 ResponseWriter.fresh r2).header
    ∧ (Shop3.list inv ord1 ResponseWriter.fresh r1).body
        = String.join (ord1.val.map fun e => listLine e.1 e.2)
    ∧ (Shop3.list inv ord2 ResponseWriter.fresh r2).body
        = String.join (ord2.val.map fun e => listLine e.1 e.2)
    ∧ (ord1.val.map fun e => listLine e.1 e.2).Perm (ord2.val.map fun e => listLine e.1 e.2)
    ∧ (ord1.val = ord2.val →
        Shop3.list inv ord1 ResponseWriter.fresh r1 = Shop3.list inv ord2 ResponseWriter.fresh r2)
    ∧ (r1.Path = "/list" → r2.Path = "/list" →
        (Shop2.ServeHTTP tbl inv ord1 ResponseWriter.fresh r1).Code
          = (Shop2.ServeHTTP tbl inv ord2 ResponseWriter.fresh r2).Code
        ∧ (Shop2.ServeHTTP tbl inv ord1 ResponseWriter.fresh r1).body
          = String.join (ord1.val.map fun e => listLine e.1 e.2)
        ∧ (Shop2.ServeHTTP tbl inv ord2 ResponseWriter.fresh r2).body
          = String.join (ord2.val.map fun e => listLine e.1 e.2)) := by
  have hprice : Shop3.price tbl inv ResponseWriter.fresh r1
      = Shop3.price tbl inv ResponseWriter.fresh r2 := by
    unfold Shop3.price
    rw [hitem]
  obtain ⟨hc1, hh1, hb1⟩ := foldl_Write_fresh ord1.val
  obtain ⟨hc2, hh2, hb2⟩ := foldl_Write_fresh ord2.val
  refine ⟨hprice, ?_, ?_, ?_, hb1, hb2, ?_, ?_, ?_⟩
  · intro hp1 hp2
    rw [ServeHTTP_price tbl inv ord1 _ r1 hp1, ServeHTTP_price tbl inv ord2 _ r2 hp2, hprice]
  · exact hc1.trans hc2.symm
  · exact hh1.trans hh2.symm
  · exact (ord1.property.trans ord2.property.symm).map _
  · intro hsame
    unfold Shop3.list
    rw [hsame]
  · intro hl1 hl2
    rw [ServeHTTP_list tbl inv ord1 _ r1 hl1, ServeHTTP_list tbl inv ord2 _ r2 hl2]
    exact ⟨hc1.trans hc2.symm, hb1, hb2⟩

/-- C8, amended, at the inventory of variant 3: the lookups of `shoes` by a `GET` and
by a `POST` request give the same response, and the list enumerated shoes first and
socks first has the same status and the same two lines. -/
theorem C8_repeated_calls_witness :
    getPriceShoes.Query.Get "item" = postPriceShoes.Query.Get "item"
    ∧ Shop3.price allPrintable Shop3.inv ResponseWriter.fresh getPriceShoes
        = Shop3.price allPrintable Shop3.inv ResponseWriter.fresh postPriceShoes
    ∧ (Shop3.list Shop3.inv shoesFirst ResponseWriter.fresh getPriceShoes).Code
        = (Shop3.list Shop3.inv socksFirst ResponseWriter.fresh postPriceShoes).Code
    ∧ (shoesFirst.val.map fun e => listLine e.1 e.2).Perm
        (socksFirst.val.map fun e => listLine e.1 e.2) :=
  have h := C8_repeated_calls allPrintable Shop3.inv shoesFirst socksFirst getPriceShoes
    postPriceShoes (by decide)
  ⟨by decide, h.1, h.2.2.1, h.2.2.2.2.2.2.1⟩

theorem foldl_Fprintf_inv (es : List (String × Int)) :
    ∀ s : Store, (es.foldl (fun s e => s.Fprintf (listLine e.1 e.2)) s).inv = s.inv := by
  induction es with
  | nil => intro s; rfl
  | cons e es ih =>
    intro s
    rw [List.foldl_cons, ih]
    rfl

theorem foldl_Fprintf_w (es : List (String × Int)) :
    ∀ s : Store, (es.foldl (fun s e => s.Fprintf (listLine e.1 e.2)) s).w
      = es.foldl (fun w e => w.Write (listLine e.1 e.2)) s.w := by
  induction es with
  | nil => intro s; rfl
  | cons e es ih =>
    intro s
    rw [List.foldl_cons, List.foldl_cons, ih]
    rfl

theorem list_run_inv (choose : (m : inventory) → m.Order) (s : Store) (r : Request) :
    (Shop3.list.run choose s r).inv = s.inv :=
  foldl_Fprintf_inv _ s

theorem price_run_inv (tbl : Char → Bool) (s : Store) (r : Request) :
    (Shop3.price.run tbl s r).inv = s.inv := by
  unfold Shop3.price.run
  cases s.inv.get? (r.Query.Get "item") <;> rfl

theorem ServeHTTP1_run_inv (choose : (m : inventory) → m.Order) (s : Store) (r : Request) :
    (Shop1.ServeHTTP.run choose s r).inv = s.inv :=
  foldl_Fprintf_inv _ s

theorem ServeHTTP2_run_inv (tbl : Char → Bool) (choose : (m : inventory) → m.Order)
    (s : Store) (r : Request) : (Shop2.ServeHTTP.run tbl choose s r).inv = s.inv := by
  unfold Shop2.ServeHTTP.run
  split_ifs
  · exact foldl_Fprintf_inv _ s
  · cases s.inv.get? (r.Query.Get "item") <;> rfl
  · rfl

/-- The handlers on a store write to the writer what the handlers on a writer do. -/
theorem run_writer (tbl : Char → Bool) (choose : (m : inventory) → m.Order) (s : Store)
    (r : Request) :
    (Shop1.ServeHTTP.run choose s r).w = Shop1.ServeHTTP s.inv (choose s.inv) s.w r
    ∧ (Shop2.ServeHTTP.run tbl choose s r).w = Shop2.ServeHTTP tbl s.inv (choose s.inv) s.w r
    ∧ (Shop3.list.run choose s r).w = Shop3.list s.inv (choose s.inv) s.w r
    ∧ (Shop3.price.run tbl s r).w = Shop3.price tbl s.inv s.w r := by
  refine ⟨foldl_Fprintf_w _ s, ?_, foldl_Fprintf_w _ s, ?_⟩
  · unfold Shop2.ServeHTTP.run Shop2.ServeHTTP
    split_ifs
    · exact foldl_Fprintf_w _ s
    · cases s.inv.get? (r.Query.Get "item") <;> rfl
    · rfl
  · unfold Shop3.price.run Shop3.price
    cases s.inv.get? (r.Query.Get "item") <;> rfl

theorem mux_run_lookup (tbl : Char → Bool) (choose : (m : inventory) → m.Order)
    (path : String) :
    (Shop3.mux.run tbl choose).m.lookup path =
      if path = "/list" then some (Shop3.list.run choose)
      else if path = "/price" then some (Shop3.price.run tbl) else none := by
  by_cases hl : path = "/list"
  · subst hl
    simp [Shop3.mux.run, ServeMux.HandleFunc, DefaultServeMux, List.lookup]
  · by_cases hp : path = "/price"
    · subst hp
      have hne : ("/price" == "/list") = false := by decide
      simp [Shop3.mux.run, ServeMux.HandleFunc, DefaultServeMux, List.lookup, hne]
    · have hl2 : (path == "/list") = false := by simpa using hl
      have hp2 : (path == "/price") = false := by simpa using hp
      simp [Shop3.mux.run, ServeMux.HandleFunc, DefaultServeMux, List.lookup, hl, hp, hl2,
        hp2]

/-- Whatever handler the multiplexer of variant 3 selects leaves the map as it was. -/
theorem mux_run_route_inv (tbl : Char → Bool) (choose : (m : inventory) → m.Order)
    (r : Request) (pattern : String) (h : Store → Request → Store)
    (hroute : (Shop3.mux.run tbl choose).route r = Route.handler pattern h) :
    ∀ s : Store, (h s r).inv = s.inv := by
  unfold ServeMux.route at hroute
  split_ifs at hroute
  rw [mux_run_lookup] at hroute
  split_ifs at hroute
  · simp only [Route.handler.injEq] at hroute
    intro s
    rw [← hroute.2]
    exact list_run_inv choose s r
  · simp only [Route.handler.injEq] at hroute
    intro s
    rw [← hroute.2]
    exact price_run_inv tbl s r

theorem handle_eq (tbl : Char → Bool) (choose : (m : inventory) → m.Order) (v : Variant)
    (s : inventory) (r : Request) : handle tbl choose v s r = s := by
  unfold handle
  split_ifs
  · rfl
  · cases v with
    | one => exact ServeHTTP1_run_inv choose ⟨s, ResponseWriter.fresh⟩ r
    | two => exact ServeHTTP2_run_inv tbl choose ⟨s, ResponseWriter.fresh⟩ r
    | three =>
      simp only []
      cases hroute : (Shop3.mux.run tbl choose).route r with
      | badRequest => rfl
      | redirect path => rfl
      | notFound => rfl
      | handler pattern h =>
        exact mux_run_route_inv tbl choose r pattern h hroute ⟨s, ResponseWriter.fresh⟩

theorem initial_prices (v : Variant) (item : String) (price : Int)
    (h : (initial v).get? item = some price) : 0 ≤ price := by
  have hmem := (lookup_eq_some_iff (initial v).entries (initial v).nodup item price).mp h
  cases v <;>
    simp only [initial, Shop1.inv, Shop2.inv, Shop3.inv, List.mem_cons, Prod.mk.injEq,
      List.mem_nil_iff, or_false] at hmem <;>
    rcases hmem with ⟨-, hp⟩ | ⟨-, hp⟩ <;> rw [hp] <;> decide

/-- C9: in each of the three variants, with the inventory built in `main` as initial
state and the handling of any request, under any enumeration order, as a step, every
reachable inventory is the initial one; handling a further request leaves it as it is
(no handler inserts, deletes or changes an entry); and so every item in a reachable
inventory has a non-negative price. -/
theorem C9_inventory_never_changes (v : Variant) (s : inventory) (h : Reachable v s) :
    s = initial v
    ∧ (∀ (tbl : Char → Bool) (choose : (m : inventory) → m.Order) (r : Request),
        handle tbl choose v s r = s)
    ∧ ∀ (item : String) (price : Int), s.get? item = some price → 0 ≤ price := by
  have hs : s = initial v := by
    induction h with
    | init => rfl
    | step tbl choose s r _ ih => rw [handle_eq]; exact ih
  refine ⟨hs, fun tbl choose r => handle_eq tbl choose v s r, ?_⟩
  intro item price hget
  rw [hs] at hget
  exact initial_prices v item price hget

/-- C9 at variant 3 after the requests `GET /list` and `GET /price?item=boots` have been
handled, the map being enumerated in reverse: the inventory is still the one built in
`main`. -/
theorem C9_inventory_never_changes_witness :
    Reachable Variant.three
      (handle allPrintable reversed Variant.three
        (handle allPrintable reversed Variant.three (initial Variant.three) getList)
        getPriceBoots)
    ∧ handle allPrintable reversed Variant.three
        (handle allPrintable reversed Variant.three (initial Variant.three) getList)
        getPriceBoots = initial Variant.three
    ∧ (initial Variant.three).get? "shoes" = some 50 :=
  ⟨Reachable.step allPrintable reversed _ getPriceBoots
      (Reachable.step allPrintable reversed _ getList Reachable.init),
    (C9_inventory_never_changes Variant.three _
      (Reachable.step allPrintable reversed _ getPriceBoots
        (Reachable.step allPrintable reversed _ getList Reachable.init))).1,
    by decide⟩

/-- C10, refuted as stated: on the path `/list` the two variants need not give the same
body.  On the same inventory, variant 2 enumerating the map shoes first writes
`shoes: 50`, `socks: 5`, and variant 3 enumerating it socks first writes `socks: 5`,
`shoes: 50`. -/
theorem C10_counterexample :
    getList.Path = "/list"
    ∧ (Shop2.ServeHTTP allPrintable Shop3.inv shoesFirst ResponseWriter.fresh getList).body
        = "shoes: 50\nsocks: 5\n"
    ∧ (Shop3.list Shop3.inv socksFirst ResponseWriter.fresh getList).body
        = "socks: 5\nshoes: 50\n"
    ∧ Shop2.ServeHTTP allPrintable Shop3.inv shoesFirst ResponseWriter.fresh getList
        ≠ Shop3.list Shop3.inv socksFirst ResponseWriter.fresh getList := by
  decide

/-- C10, amended: variants 2 and 3 agree on the routed paths.  For every inventory and
request: if the path is `/price`, variant 2's `ServeHTTP` leaves the writer exactly as
variant 3's `inventory.price` does, same status and same body; if the path is `/list`,
with variant 2 enumerating the map in the order `ord2` and variant 3 in the order
`ord3`, the two responses have the same status and headers, and bodies made of the
same lines, each the same number of times, in the order of each enumeration; and they
are the same response when the two enumerations are the same. -/
theorem C10_variants_agree (tbl : Char → Bool) (inv : inventory) (ord2 ord3 : inv.Order)
    (w : ResponseWriter) (r : Request) :
    (r.Path = "/price" →
      Shop2.ServeHTTP tbl inv ord2 w r = Shop3.price tbl inv w r
      ∧ (Shop2.ServeHTTP tbl inv ord2 w r).Code = (Shop3.price tbl inv w r).Code
      ∧ (Shop2.ServeHTTP tbl inv ord2 w r).body = (Shop3.price tbl inv w r).body)
    ∧ (r.Path = "/list" →
      (Shop2.ServeHTTP tbl inv ord2 ResponseWriter.fresh r).Code
        = (Shop3.list inv ord3 ResponseWriter.fresh r).Code
      ∧ (Shop2.ServeHTTP tbl inv ord2 ResponseWriter.fresh r).header
        = (Shop3.list inv ord3 ResponseWriter.fresh r).header
      ∧ (Shop2.ServeHTTP tbl inv ord2 ResponseWriter.fresh r).body
        = String.join (ord2.val.map fun e => listLine e.1 e.2)
      ∧ (Shop3.list inv ord3 ResponseWriter.fresh r).body
        = String.join (ord3.val.map fun e => listLine e.1 e.2)
      ∧ (ord2.val.map fun e => listLine e.1 e.2).Perm
          (ord3.val.map fun e => listLine e.1 e.2)
      ∧ (ord2.val = ord3.val →
          Shop2.ServeHTTP tbl inv ord2 w r = Shop3.list inv ord3 w r)) := by
  constructor
  · intro hpath
    have heq := ServeHTTP_price tbl inv ord2 w r hpath
    exact ⟨heq, by rw [heq], by rw [heq]⟩
  · intro hpath
    obtain ⟨hc2, hh2, hb2⟩ := foldl_Write_fresh ord2.val
    obtain ⟨hc3, hh3, hb3⟩ := foldl_Write_fresh ord3.val
    rw [ServeHTTP_list tbl inv ord2 _ r hpath]
    refine ⟨hc2.trans hc3.symm, hh2.trans hh3.symm, hb2, hb3, ?_, ?_⟩
    · exact (ord2.property.trans ord3.property.symm).map _
    · intro hsame
      rw [ServeHTTP_list tbl inv ord2 w r hpath]
      unfold Shop3.list
      rw [hsame]

/-- C10, amended, at the inventory of variant 3: on `GET /price?item=shoes` the two
variants give the same response, and on `GET /list`, enumerated shoes first in variant 2
and socks first in variant 3, the same status and the same two lines. -/
theorem C10_variants_agree_witness :
    Shop2.ServeHTTP allPrintable Shop3.inv shoesFirst ResponseWriter.fresh getPriceShoes
        = Shop3.price allPrintable Shop3.inv ResponseWriter.fresh getPriceShoes
    ∧ (Shop2.ServeHTTP allPrintable Shop3.inv shoesFirst ResponseWriter.fresh getList).Code
        = (Shop3.list Shop3.inv socksFirst ResponseWriter.fresh getList).Code
    ∧ (shoesFirst.val.map fun e => listLine e.1 e.2).Perm
        (socksFirst.val.map fun e => listLine e.1 e.2) :=
  ⟨((C10_variants_agree allPrintable Shop3.inv shoesFirst socksFirst ResponseWriter.fresh
      getPriceShoes).1 (by decide)).1,
    ((C10_variants_agree allPrintable Shop3.inv shoesFirst socksFirst ResponseWriter.fresh
      getList).2 (by decide)).1,
    ((C10_variants_agree allPrintable Shop3.inv shoesFirst socksFirst ResponseWriter.fresh
      getList).2 (by decide)).2.2.2.2.1⟩

end Shop
